import Mathlib

/-!
Shallow embedding of the AOS-CX cliconf adapter (`plugins/cliconf/aoscx.py`)
and proofs about its operations.

Modelling conventions:
* `send_command`, the single primitive the adapter delegates to, is a
  parameter of each operation: a pure function from the command (or the full
  argument record) to the device's textual reply, or to an `Except` value
  when the call may raise `AnsibleConnectionFailure`.
* Each operation additionally returns the ordered list of `send_command`
  calls it issued (its trace), so that "issues exactly these commands in this
  order" is a statement about the returned trace.
* `to_text` on a value that is already text is the identity and is elided;
  on a captured exception it is modelled by `failureText`.
* The `@enable_mode` decorator only manages privilege mode in the host
  framework's base class and does not alter the data flow modelled here.
-/

namespace AoscxCliconf

/-- Result of `get_config`: either the invalid-parameters value produced by
the base class's `invalid_params`, or the reply of the one `send_command`
call. -/
inductive GetConfigResult where
  | invalidParams (msg : String)
  | reply (text : String)
  deriving DecidableEq, Repr

/-- The base class's `invalid_params`, modelled abstractly: it turns the
message into the invalid-parameters result (the base class lives in the host
framework, outside this repository). -/
def invalid_params (msg : String) : GetConfigResult :=
  GetConfigResult.invalidParams msg

/-- Embedding of `Cliconf.get_config`. `flags` and `format` are accepted by
the Python signature but never read by the body; they are parameters here for
fidelity and are ignored. The second component is the trace of `send_command`
calls. -/
def get_config (send_command : String → String) (source : String)
    (flags : Option (List String)) (format : String) :
    GetConfigResult × List String :=
  if source ∉ (["running", "startup"] : List String) then
    (invalid_params ("fetching configuration from " ++ source
      ++ " is not supported"), [])
  else
    let cmd := if source = "running" then "show running-config all"
               else "show configuration"
    (GetConfigResult.reply (send_command cmd), [cmd])

/-- A Python argument that may be a single value, a list of values, or
`None`, as consumed by netcommon's `to_list`. -/
inductive PyArg (α : Type) where
  | one (x : α)
  | many (l : List α)
  | nothing
  deriving DecidableEq, Repr

/-- netcommon's `to_list`: a list is kept, a non-`None` scalar is wrapped in
a one-element list, `None` becomes the empty list. -/
def to_list {α : Type} : PyArg α → List α
  | PyArg.one x => [x]
  | PyArg.many l => l
  | PyArg.nothing => []

/-- Embedding of `Cliconf.edit_config`: the Python function returns `None`
(modelled by `Unit`) and its effect is the ordered trace of `send_command`
calls, `chain(["configure terminal"], to_list(command), ["end"])`. -/
def edit_config (command : PyArg String) : Unit × List String :=
  ((), "configure terminal" :: (to_list command ++ ["end"]))

/-- C1: for every source other than "running" and "startup", `get_config`
returns the invalid-parameters result with the message
"fetching configuration from <source> is not supported" and issues no
`send_command` call. -/
theorem get_config_invalid_source (send_command : String → String)
    (source : String) (flags : Option (List String)) (format : String)
    (h : source ∉ (["running", "startup"] : List String)) :
    get_config send_command source flags format
      = (invalid_params ("fetching configuration from " ++ source
          ++ " is not supported"), []) := by
  simp [get_config, h]

/-- Witness for C1 at the concrete source "candidate". -/
theorem get_config_invalid_source_witness :
    get_config (fun _ => "reply") "candidate" none "text"
      = (invalid_params
          "fetching configuration from candidate is not supported", []) :=
  get_config_invalid_source (fun _ => "reply") "candidate" none "text"
    (by decide)

/-- C2: `get_config` with source "running" issues exactly the single command
"show running-config all", with source "startup" exactly "show
configuration", and in both cases returns the reply of that `send_command`
call unchanged. -/
theorem get_config_valid_sources (send_command : String → String)
    (flags : Option (List String)) (format : String) :
    get_config send_command "running" flags format
      = (GetConfigResult.reply (send_command "show running-config all"),
          ["show running-config all"])
    ∧ get_config send_command "startup" flags format
      = (GetConfigResult.reply (send_command "show configuration"),
          ["show configuration"]) := by
  constructor <;> rfl

/-- C7: `edit_config` issues, in order, "configure terminal", then the batch
(a single command normalized to a one-element list), then "end", and returns
nothing. -/
theorem edit_config_trace (l : List String) (s : String) :
    edit_config (PyArg.many l) = ((), "configure terminal" :: (l ++ ["end"]))
    ∧ edit_config (PyArg.one s)
      = ((), ["configure terminal", s, "end"]) := by
  constructor <;> rfl

/-- Arguments of one `send_command` call, as the base class's signature
accepts them; a Python `Mapping` element of `commands` is expanded into these
keyword arguments by `send_command(**cmd)`. -/
structure SendArgs where
  command : String
  prompt : Option String := none
  answer : Option String := none
  sendonly : Bool := false
  newline : Bool := true
  check_all : Bool := false
  deriving DecidableEq, Repr

/-- An element of the `commands` argument of `run_commands`: a bare string
or a `Mapping` of `send_command` keyword arguments. -/
inductive RunCmd where
  | strCmd (s : String)
  | mapCmd (m : SendArgs)
  deriving DecidableEq, Repr

/-- The normalization `if not isinstance(cmd, Mapping): cmd = {"command": cmd}`
followed by `send_command(**cmd)`: a bare string becomes a call with only
`command` set and the other keyword arguments at their defaults. -/
def normalizeCmd : RunCmd → SendArgs
  | RunCmd.strCmd s => { command := s }
  | RunCmd.mapCmd m => m

/-- An `AnsibleConnectionFailure` raised by `send_command`: its message (what
`to_text(exception)` yields) and its optional `err` attribute (consulted by
`getattr(exception, "err", exception)`). -/
structure ConnFailure where
  message : String
  err : Option String
  deriving DecidableEq, Repr

/-- The text substituted for a failed command's output when `check_rc` is
false: `to_text(getattr(exception, "err", exception))`. -/
def failureText (f : ConnFailure) : String :=
  f.err.getD f.message

/-- What `run_commands` can raise: the `ValueError` for a missing `commands`
argument, or a propagated `AnsibleConnectionFailure`. -/
inductive RunError where
  | valueError (msg : String)
  | connFailure (f : ConnFailure)
  deriving DecidableEq, Repr

/-- The `for cmd in to_list(commands)` loop of `run_commands`: each command
is normalized and sent; a failure is re-raised when `check_rc` is true and
otherwise contributes `failureText` in place of the output. Returns the
outcome together with the trace of issued `send_command` calls. -/
def runLoop (send_command : SendArgs → Except ConnFailure String)
    (check_rc : Bool) :
    List RunCmd → Except ConnFailure (List String) × List SendArgs
  | [] => (Except.ok [], [])
  | c :: rest =>
    let args := normalizeCmd c
    match send_command args with
    | Except.ok out =>
      let r := runLoop send_command check_rc rest
      (r.1.map (fun l => out :: l), args :: r.2)
    | Except.error f =>
      if check_rc then (Except.error f, [args])
      else
        let r := runLoop send_command check_rc rest
        (r.1.map (fun l => failureText f :: l), args :: r.2)

/-- Embedding of `Cliconf.run_commands`: `commands = None` raises the
`ValueError` before anything is sent; otherwise the loop over
`to_list(commands)` runs. -/
def run_commands (send_command : SendArgs → Except ConnFailure String)
    (commands : PyArg RunCmd) (check_rc : Bool) :
    Except RunError (List String) × List SendArgs :=
  match commands with
  | PyArg.nothing =>
    (Except.error (RunError.valueError "\x27commands\x27 value is required"),
      [])
  | cs =>
    let r := runLoop send_command check_rc (to_list cs)
    (match r.1 with
     | Except.ok l => Except.ok l
     | Except.error f => Except.error (RunError.connFailure f), r.2)

/-- The response recorded for one command: the output when `send_command`
succeeded, the substituted failure text when it raised. -/
def responseOf (r : Except ConnFailure String) : String :=
  match r with
  | Except.ok out => out
  | Except.error f => failureText f

/-- With `check_rc = false` the loop never propagates: it returns one
response per command, `responseOf` of each send. -/
theorem runLoop_check_rc_false
    (send_command : SendArgs → Except ConnFailure String)
    (l : List RunCmd) :
    runLoop send_command false l
      = (Except.ok (l.map (fun c => responseOf (send_command (normalizeCmd c)))),
         l.map normalizeCmd) := by
  induction l with
  | nil => rfl
  | cons c rest ih =>
    simp only [runLoop, ih]
    cases h : send_command (normalizeCmd c) <;>
      simp [responseOf, h, Except.map]

/-- When every send succeeds, the loop returns one output per command for
either value of `check_rc`. -/
theorem runLoop_all_ok
    (send_command : SendArgs → Except ConnFailure String)
    (check_rc : Bool) (l : List RunCmd)
    (h : ∀ c ∈ l, ∃ out, send_command (normalizeCmd c) = Except.ok out) :
    runLoop send_command check_rc l
      = (Except.ok (l.map (fun c => responseOf (send_command (normalizeCmd c)))),
         l.map normalizeCmd) := by
  induction l with
  | nil => rfl
  | cons c rest ih =>
    obtain ⟨out, hout⟩ := h c (List.mem_cons_self c rest)
    have hrest := ih (fun c' hc' => h c' (List.mem_cons_of_mem c hc'))
    simp only [runLoop, hrest, hout]
    simp [responseOf, hout, Except.map]

/-- When every command before `c` succeeds and `c`'s send raises `f`, the
loop with `check_rc = true` propagates exactly `f`. -/
theorem runLoop_check_rc_true_fail
    (send_command : SendArgs → Except ConnFailure String)
    (pre post : List RunCmd) (c : RunCmd) (f : ConnFailure)
    (hpre : ∀ c' ∈ pre, ∃ out, send_command (normalizeCmd c') = Except.ok out)
    (hc : send_command (normalizeCmd c) = Except.error f) :
    (runLoop send_command true (pre ++ c :: post)).1 = Except.error f := by
  induction pre with
  | nil =>
    simp only [List.nil_append, runLoop, hc]
    rfl
  | cons p pre' ih =>
    obtain ⟨out, hout⟩ := hpre p (List.mem_cons_self p pre')
    have h' := ih (fun c' hc' => hpre c' (List.mem_cons_of_mem p hc'))
    simp only [List.cons_append, runLoop, hout, List.append_eq]
    rw [h']
    rfl

/-- C3: for a command whose `send_command` call raises the connection
failure `f` (every earlier command succeeding): with `check_rc = true` the
failure propagates out of `run_commands`; with `check_rc = false` it is
captured, the failure text — the exception's `err` attribute, or the
exception's own message when `err` is absent — stands in place of that
command's output, and every remaining command is still processed. -/
theorem run_commands_connection_failure
    (send_command : SendArgs → Except ConnFailure String)
    (pre post : List RunCmd) (c : RunCmd) (f : ConnFailure)
    (hpre : ∀ c' ∈ pre, ∃ out, send_command (normalizeCmd c') = Except.ok out)
    (hc : send_command (normalizeCmd c) = Except.error f) :
    (run_commands send_command (PyArg.many (pre ++ c :: post)) true).1
      = Except.error (RunError.connFailure f)
    ∧ (run_commands send_command (PyArg.many (pre ++ c :: post)) false).1
      = Except.ok ((pre ++ c :: post).map
          (fun x => responseOf (send_command (normalizeCmd x))))
    ∧ responseOf (send_command (normalizeCmd c)) = failureText f
    ∧ failureText f = f.err.getD f.message := by
  refine ⟨?_, ?_, ?_, rfl⟩
  · have h := runLoop_check_rc_true_fail send_command pre post c f hpre hc
    simp only [run_commands, to_list]
    rw [h]
  · simp only [run_commands, to_list, runLoop_check_rc_false]
  · rw [hc]; rfl

/-- Witness for C3: one succeeding command, then one whose send fails with
err "transport down", then one more succeeding command. -/
theorem run_commands_connection_failure_witness :
    (run_commands
        (fun a => if a.command = "bad"
          then Except.error { message := "boom", err := some "transport down" }
          else Except.ok ("out " ++ a.command))
        (PyArg.many [RunCmd.strCmd "a", RunCmd.strCmd "bad", RunCmd.strCmd "b"])
        true).1
      = Except.error (RunError.connFailure
          { message := "boom", err := some "transport down" })
    ∧ (run_commands
        (fun a => if a.command = "bad"
          then Except.error { message := "boom", err := some "transport down" }
          else Except.ok ("out " ++ a.command))
        (PyArg.many [RunCmd.strCmd "a", RunCmd.strCmd "bad", RunCmd.strCmd "b"])
        false).1
      = Except.ok ["out a", "transport down", "out b"] := by
  have h := run_commands_connection_failure
    (fun a => if a.command = "bad"
      then Except.error { message := "boom", err := some "transport down" }
      else Except.ok ("out " ++ a.command))
    [RunCmd.strCmd "a"] [RunCmd.strCmd "b"] (RunCmd.strCmd "bad")
    { message := "boom", err := some "transport down" }
    (by intro c' hc'
        simp only [List.mem_singleton] at hc'
        exact ⟨"out a", by rw [hc']; rfl⟩)
    rfl
  exact ⟨h.1, h.2.1.trans rfl⟩

/-- C9: for a non-empty batch in which every send succeeds, `run_commands`
returns, for either value of `check_rc`, the list of the commands' outputs
in the batch's order, one response per command. -/
theorem run_commands_responses
    (send_command : SendArgs → Except ConnFailure String)
    (l : List RunCmd) (check_rc : Bool)
    (hne : l ≠ [])
    (h : ∀ c ∈ l, ∃ out, send_command (normalizeCmd c) = Except.ok out) :
    (run_commands send_command (PyArg.many l) check_rc).1
      = Except.ok (l.map (fun c => responseOf (send_command (normalizeCmd c))))
    ∧ (l.map (fun c => responseOf (send_command (normalizeCmd c)))).length
      = l.length := by
  refine ⟨?_, List.length_map l _⟩
  simp only [run_commands, to_list, runLoop_all_ok send_command check_rc l h]

/-- Witness for C9 with the two-command batch ["a", "b"]. -/
theorem run_commands_responses_witness :
    (run_commands (fun a => Except.ok ("out " ++ a.command))
        (PyArg.many [RunCmd.strCmd "a", RunCmd.strCmd "b"]) false).1
      = Except.ok ["out a", "out b"] := by
  have h := run_commands_responses (fun a => Except.ok ("out " ++ a.command))
    [RunCmd.strCmd "a", RunCmd.strCmd "b"] false (by decide)
    (fun c _ => ⟨"out " ++ (normalizeCmd c).command, rfl⟩)
  exact h.1.trans (by rfl)

/-- C10: `run_commands` with `commands = None` raises the `ValueError`
whose message is: 'commands' value is required, before sending anything, for
every value of `check_rc`. -/
theorem run_commands_none_commands
    (send_command : SendArgs → Except ConnFailure String) (check_rc : Bool) :
    run_commands send_command PyArg.nothing check_rc
      = (Except.error (RunError.valueError "\x27commands\x27 value is required"),
         []) := rfl

/-- Python's whitespace class over the ASCII range: the characters matched
by the regex class backslash-s and stripped by `str.strip()`. -/
def pyIsSpace (c : Char) : Bool :=
  c == ' ' || c == '\t' || c == '\n' || c == '\r' || c == '\x0b' || c == '\x0c'

/-- Python's `str.strip()`: leading and trailing whitespace removed. -/
def pyStrip (l : List Char) : List Char :=
  ((l.dropWhile pyIsSpace).reverse.dropWhile pyIsSpace).reverse

/-- A regex group that must take at least one character: the greedy run is
kept when non-empty, otherwise the attempt fails. -/
def groupOrNone (tok : List Char) : Option (List Char) :=
  if tok.isEmpty then none else some tok

/-- One attempt of the pattern Version followed by a space and a group of
one or more non-whitespace characters, anchored at the head of `l`: on
success the group, which is the maximal non-whitespace run after the literal
prefix. -/
def versionTokenAt (l : List Char) : Option (List Char) :=
  if ("Version ".toList).isPrefixOf l then
    groupOrNone ((l.drop ("Version ".toList.length)).takeWhile
      (fun c => !pyIsSpace c))
  else none

/-- `re.search` of the version pattern: the attempt is made at every index
from the left, and the first (leftmost) success wins. -/
def searchVersion : List Char → Option (List Char)
  | [] => none
  | c :: rest =>
    match versionTokenAt (c :: rest) with
    | some tok => some tok
    | none => searchVersion rest

/-- One attempt of the pattern, anchored at a line start by the multiline
caret: Hostname is followed by a space and a group of one or more
characters other than newline, which greedily takes the rest of the line. -/
def hostnameTokenAt (l : List Char) : Option (List Char) :=
  if ("Hostname is ".toList).isPrefixOf l then
    groupOrNone ((l.drop ("Hostname is ".toList.length)).takeWhile
      (fun c => c != '\n'))
  else none

/-- `re.search` of the hostname pattern with the multiline flag: the
attempt is made only at indices that start a line (index 0, or just after a
newline), leftmost success first. -/
def searchHostnameFrom : Bool → List Char → Option (List Char)
  | _, [] => none
  | lineStart, c :: rest =>
    match (if lineStart then hostnameTokenAt (c :: rest) else none) with
    | some tok => some tok
    | none => searchHostnameFrom (c == '\n') rest

/-- The hostname search over a whole text (index 0 starts a line). -/
def searchHostname (l : List Char) : Option (List Char) :=
  searchHostnameFrom true l

/-- Backtracking of the greedy group of the model pattern: the group first
takes `n` characters of `after` and gives characters back one at a time
until the literal close-parenthesis and comma follow it. -/
def modelBacktrack (after : List Char) : Nat → Option (List Char)
  | 0 => none
  | n + 1 =>
    if ([')', ','] : List Char).isPrefixOf (after.drop (n + 1)) then
      some (after.take (n + 1))
    else modelBacktrack after n

/-- One attempt of the pattern MODEL, colon, space, a group of one or more
non-whitespace characters, then a close parenthesis and a comma, anchored
at a line start: the greedy group starts from the maximal non-whitespace
run and backtracks. -/
def modelTokenAt (l : List Char) : Option (List Char) :=
  if ("MODEL: ".toList).isPrefixOf l then
    let after := l.drop ("MODEL: ".toList.length)
    modelBacktrack after ((after.takeWhile (fun c => !pyIsSpace c)).length)
  else none

/-- `re.search` of the model pattern with the multiline flag: attempts only
at line starts, leftmost success first. -/
def searchModelFrom : Bool → List Char → Option (List Char)
  | _, [] => none
  | lineStart, c :: rest =>
    match (if lineStart then modelTokenAt (c :: rest) else none) with
    | some tok => some tok
    | none => searchModelFrom (c == '\n') rest

/-- The model search over a whole text. -/
def searchModel (l : List Char) : Option (List Char) :=
  searchModelFrom true l

/-- A conditional dictionary entry: `if match: device_info[key] = group`. -/
def optField (key : String) (r : Option (List Char)) : List (String × String) :=
  match r with
  | some tok => [(key, tok.asString)]
  | none => []

/-- Embedding of `Cliconf.get_device_info`. The Python dict, in insertion
order, is an association list: `network_os` is always set to "aruba"; the
version and model patterns run over the stripped reply to "show version",
the hostname pattern over the stripped reply to "show hostname", and each
key is inserted only when its pattern matched. -/
def get_device_info (send_command : String → String) :
    List (String × String) :=
  ("network_os", "aruba")
    :: (optField "network_os_version"
          (searchVersion (pyStrip (send_command "show version").toList))
      ++ optField "network_os_model"
          (searchModel (pyStrip (send_command "show version").toList))
      ++ optField "network_os_hostname"
          (searchHostname (pyStrip (send_command "show hostname").toList)))

/-- A group succeeds exactly with the non-empty greedy run itself. -/
theorem groupOrNone_eq_some (t tok : List Char)
    (h : groupOrNone t = some tok) : tok = t ∧ t ≠ [] := by
  unfold groupOrNone at h
  split at h
  case isTrue => exact absurd h (by simp)
  case isFalse hne =>
    injection h with h
    exact ⟨h.symm, by simpa using hne⟩

/-- Soundness of one anchored version attempt: a reported group really
follows the literal prefix, is non-empty and contains no whitespace. -/
theorem versionTokenAt_sound (l tok : List Char)
    (h : versionTokenAt l = some tok) :
    (∃ suf, l = "Version ".toList ++ (tok ++ suf))
    ∧ tok ≠ [] ∧ tok.all (fun c => !pyIsSpace c) := by
  unfold versionTokenAt at h
  split at h
  case isFalse => exact absurd h (by simp)
  case isTrue hpre =>
    obtain ⟨htok, hne⟩ := groupOrNone_eq_some _ _ h
    obtain ⟨t, ht⟩ := List.isPrefixOf_iff_prefix.mp hpre
    have hdrop : l.drop ("Version ".toList.length) = t := by
      rw [← ht, List.drop_left]
    rw [hdrop] at htok hne
    refine ⟨⟨t.dropWhile (fun c => !pyIsSpace c), ?_⟩, ?_, ?_⟩
    · rw [← ht, htok, List.takeWhile_append_dropWhile]
    · rw [htok]
      exact hne
    · rw [htok, List.all_eq_true]
      intro c hc
      have h2 := List.mem_takeWhile_imp hc
      simpa using h2

/-- Soundness of the version search: a reported group is a non-empty
whitespace-free token standing right after an occurrence of the literal
Version-and-space in the text. -/
theorem searchVersion_sound (l tok : List Char)
    (h : searchVersion l = some tok) :
    (∃ pre suf, l = pre ++ "Version ".toList ++ (tok ++ suf))
    ∧ tok ≠ [] ∧ tok.all (fun c => !pyIsSpace c) := by
  induction l with
  | nil => exact absurd h (by simp [searchVersion])
  | cons c rest ih =>
    rw [searchVersion] at h
    cases hva : versionTokenAt (c :: rest) with
    | some t =>
      rw [hva] at h
      injection h with h
      subst h
      obtain ⟨⟨suf, hsuf⟩, hne, hall⟩ := versionTokenAt_sound _ _ hva
      exact ⟨⟨[], suf, by simpa using hsuf⟩, hne, hall⟩
    | none =>
      rw [hva] at h
      obtain ⟨⟨pre, suf, heq⟩, hne, hall⟩ := ih h
      exact ⟨⟨c :: pre, suf, by simp [heq]⟩, hne, hall⟩

/-- Soundness of one anchored hostname attempt: the group follows the
literal prefix, is non-empty and contains no newline. -/
theorem hostnameTokenAt_sound (l tok : List Char)
    (h : hostnameTokenAt l = some tok) :
    (∃ suf, l = "Hostname is ".toList ++ (tok ++ suf))
    ∧ tok ≠ [] ∧ tok.all (fun c => c != '\n') := by
  unfold hostnameTokenAt at h
  split at h
  case isFalse => exact absurd h (by simp)
  case isTrue hpre =>
    obtain ⟨htok, hne⟩ := groupOrNone_eq_some _ _ h
    obtain ⟨t, ht⟩ := List.isPrefixOf_iff_prefix.mp hpre
    have hdrop : l.drop ("Hostname is ".toList.length) = t := by
      rw [← ht, List.drop_left]
    rw [hdrop] at htok hne
    refine ⟨⟨t.dropWhile (fun c => c != '\n'), ?_⟩, ?_, ?_⟩
    · rw [← ht, htok, List.takeWhile_append_dropWhile]
    · rw [htok]
      exact hne
    · rw [htok, List.all_eq_true]
      intro c hc
      have h2 := List.mem_takeWhile_imp hc
      simpa using h2

/-- Soundness of the hostname search: a reported group follows the literal
prefix at a position that starts a line (the whole text's start when the
flag is set, otherwise just after a newline). -/
theorem searchHostnameFrom_sound (l : List Char) : ∀ (b : Bool) (tok : List Char),
    searchHostnameFrom b l = some tok →
    (∃ pre suf, l = pre ++ "Hostname is ".toList ++ (tok ++ suf)
      ∧ ((b = true ∧ pre = []) ∨ ∃ p, pre = p ++ ['\n']))
    ∧ tok ≠ [] ∧ tok.all (fun c => c != '\n') := by
  induction l with
  | nil => intro b tok h; exact absurd h (by simp [searchHostnameFrom])
  | cons c rest ih =>
    intro b tok h
    rw [searchHostnameFrom] at h
    cases hb : (if b then hostnameTokenAt (c :: rest) else none) with
    | some t =>
      rw [hb] at h
      injection h with h
      subst h
      cases b with
      | false => exact absurd hb (by simp)
      | true =>
        have hat : hostnameTokenAt (c :: rest) = some t := by simpa using hb
        obtain ⟨⟨suf, hsuf⟩, hne, hall⟩ := hostnameTokenAt_sound _ _ hat
        exact ⟨⟨[], suf, by simpa using hsuf, Or.inl ⟨rfl, rfl⟩⟩, hne, hall⟩
    | none =>
      rw [hb] at h
      obtain ⟨⟨pre, suf, heq, hpre⟩, hne, hall⟩ := ih (c == '\n') tok h
      rcases hpre with ⟨hcnl, hnil⟩ | ⟨p, hp⟩
      · refine ⟨⟨['\n'], suf, ?_, Or.inr ⟨[], rfl⟩⟩, hne, hall⟩
        have : c = '\n' := by simpa using hcnl
        subst this
        subst hnil
        simpa using heq
      · refine ⟨⟨c :: pre, suf, by simp [heq], Or.inr ⟨c :: p, by simp [hp]⟩⟩,
          hne, hall⟩

/-- Position of the hostname field in the dictionary: whatever the version
and model patterns did, a hostname match lands under its key. -/
theorem lookup_hostname_field (v m : Option (List Char)) (tok : List Char) :
    (("network_os", "aruba")
      :: (optField "network_os_version" v ++ optField "network_os_model" m
        ++ optField "network_os_hostname" (some tok))).lookup
          "network_os_hostname"
      = some tok.asString := by
  cases v <;> cases m <;> rfl

/-- C4: when the version pattern finds a token in the stripped reply to
show version — the text contains the literal Version-and-space followed by
a non-empty whitespace-free token — the mapping returned by
`get_device_info` carries that token under `network_os_version`. -/
theorem get_device_info_version (send_command : String → String)
    (tok : List Char)
    (h : searchVersion (pyStrip (send_command "show version").toList)
      = some tok) :
    (∃ pre suf, pyStrip (send_command "show version").toList
        = pre ++ "Version ".toList ++ (tok ++ suf))
    ∧ tok ≠ [] ∧ tok.all (fun c => !pyIsSpace c)
    ∧ (get_device_info send_command).lookup "network_os_version"
        = some tok.asString := by
  obtain ⟨hex, hne, hall⟩ := searchVersion_sound _ _ h
  refine ⟨hex, hne, hall, ?_⟩
  simp only [get_device_info, h, optField, List.cons_append,
    List.nil_append]
  rfl

/-- Witness for C4: a reply whose text contains the line Version 10.09
yields network_os_version equal to 10.09. -/
theorem get_device_info_version_witness :
    (get_device_info (fun c => if c = "show version"
        then "Aruba 6300\nVersion 10.09\nfoo" else "Hostname is sw1")).lookup
      "network_os_version" = some "10.09" :=
  (get_device_info_version
    (fun c => if c = "show version"
      then "Aruba 6300\nVersion 10.09\nfoo" else "Hostname is sw1")
    "10.09".toList rfl).2.2.2

/-- C5: when the hostname pattern finds a token in the stripped reply to
show hostname — a line of the text begins with the literal
Hostname-is-and-space, the token being the rest of that line — the mapping
returned by `get_device_info` carries that token under
`network_os_hostname`. -/
theorem get_device_info_hostname (send_command : String → String)
    (tok : List Char)
    (h : searchHostname (pyStrip (send_command "show hostname").toList)
      = some tok) :
    (∃ pre suf, pyStrip (send_command "show hostname").toList
        = pre ++ "Hostname is ".toList ++ (tok ++ suf)
        ∧ (pre = [] ∨ ∃ p, pre = p ++ ['\n']))
    ∧ tok ≠ [] ∧ tok.all (fun c => c != '\n')
    ∧ (get_device_info send_command).lookup "network_os_hostname"
        = some tok.asString := by
  obtain ⟨⟨pre, suf, heq, hpre⟩, hne, hall⟩ :=
    searchHostnameFrom_sound _ true tok h
  refine ⟨⟨pre, suf, heq, ?_⟩, hne, hall, ?_⟩
  · rcases hpre with ⟨_, hnil⟩ | hnl
    · exact Or.inl hnil
    · exact Or.inr hnl
  · simp only [get_device_info, h]
    exact lookup_hostname_field _ _ _

/-- Witness for C5: a reply whose stripped text has a line beginning
Hostname is sw1 yields network_os_hostname equal to sw1. -/
theorem get_device_info_hostname_witness :
    (get_device_info (fun c => if c = "show version"
        then "Aruba 6300\nVersion 10.09\nfoo" else "Hostname is sw1")).lookup
      "network_os_hostname" = some "sw1" :=
  (get_device_info_hostname
    (fun c => if c = "show version"
      then "Aruba 6300\nVersion 10.09\nfoo" else "Hostname is sw1")
    "sw1".toList rfl).2.2.2

/-- C6: each of the three optional identity keys is present in the mapping
returned by `get_device_info` exactly when its pattern matched the
corresponding stripped reply, and a key whose pattern did not match is
absent (looking it up yields nothing rather than a null value or an
error). -/
theorem get_device_info_fields_iff (send_command : String → String) :
    (((get_device_info send_command).lookup "network_os_version").isSome
      = (searchVersion (pyStrip (send_command "show version").toList)).isSome)
    ∧ (((get_device_info send_command).lookup "network_os_model").isSome
      = (searchModel (pyStrip (send_command "show version").toList)).isSome)
    ∧ (((get_device_info send_command).lookup "network_os_hostname").isSome
      = (searchHostname (pyStrip (send_command "show hostname").toList)).isSome)
    ∧ (searchVersion (pyStrip (send_command "show version").toList) = none
        → (get_device_info send_command).lookup "network_os_version" = none)
    ∧ (searchModel (pyStrip (send_command "show version").toList) = none
        → (get_device_info send_command).lookup "network_os_model" = none)
    ∧ (searchHostname (pyStrip (send_command "show hostname").toList) = none
        → (get_device_info send_command).lookup "network_os_hostname" = none)
    := by
  rcases hv : searchVersion (pyStrip (send_command "show version").toList)
    with _ | tv <;>
  rcases hm : searchModel (pyStrip (send_command "show version").toList)
    with _ | tm <;>
  rcases hh : searchHostname (pyStrip (send_command "show hostname").toList)
    with _ | th <;>
  simp only [get_device_info, hv, hm, hh, optField] <;>
  refine ⟨rfl, rfl, rfl, ?_, ?_, ?_⟩ <;>
  intro hx <;>
  first
    | rfl
    | exact absurd hx (by simp)

/-- Counterexample to C8 as stated: for the replies produced by a device
that answers every command with the empty string, the mapping holds the key
network_os (with value aruba), which is none of network_os_version,
network_os_model, network_os_hostname. -/
theorem get_device_info_extra_key_cex :
    ("network_os", "aruba") ∈ get_device_info (fun _ => "")
    ∧ "network_os" ∉ (["network_os_version", "network_os_model",
        "network_os_hostname"] : List String) := by
  constructor
  · exact List.mem_cons_self _ _
  · decide

/-- C8 (amended): the mapping returned by `get_device_info` consists of the
constant field network_os, always present with value aruba, plus the three
optional identity fields: every key is one of these four, and each optional
key is present exactly when its pattern matched. -/
theorem get_device_info_shape (send_command : String → String) :
    ((get_device_info send_command).map Prod.fst
      ⊆ (["network_os", "network_os_version", "network_os_model",
          "network_os_hostname"] : List String))
    ∧ ("network_os", "aruba") ∈ get_device_info send_command
    ∧ (((get_device_info send_command).lookup "network_os_version").isSome
      = (searchVersion (pyStrip (send_command "show version").toList)).isSome)
    ∧ (((get_device_info send_command).lookup "network_os_model").isSome
      = (searchModel (pyStrip (send_command "show version").toList)).isSome)
    ∧ (((get_device_info send_command).lookup "network_os_hostname").isSome
      = (searchHostname (pyStrip (send_command "show hostname").toList)).isSome)
    := by
  rcases hv : searchVersion (pyStrip (send_command "show version").toList)
    with _ | tv <;>
  rcases hm : searchModel (pyStrip (send_command "show version").toList)
    with _ | tm <;>
  rcases hh : searchHostname (pyStrip (send_command "show hostname").toList)
    with _ | th <;>
  simp only [get_device_info, hv, hm, hh, optField] <;>
  refine ⟨by simp, List.mem_cons_self _ _, rfl, rfl, rfl⟩

end AoscxCliconf
